import Mathlib

/-!
Formal model of the luum web client.

The repository has two React front ends: src/web-simple/src/App.tsx (capture
sequencing, file-hierarchy flattening and recency ranking) and
src/web/luum/src/App.tsx (settings list: rendering, updating, favorites
ordering).  Every definition below is a shallow embedding of a function or
code block of those files; JavaScript numbers are modelled as exact
rationals (`ℚ`) where division occurs and as `ℤ`/`ℕ` where only integer
values arise.  Asynchronous effectful code is modelled by the list of
observable effects it performs, in order: the single-threaded await-based
control flow of the source makes the effect trace of one run a plain
sequential list.
-/

namespace Luum

/-- A camera as returned by GET /api/cameras (interface `Camera`,
src/web-simple/src/App.tsx lines 23-27). -/
structure Camera where
  name : String
  port : String
  summary : String
deriving DecidableEq

/-- Observable effects of the capture-run effect
(src/web-simple/src/App.tsx lines 82-112): state updates to the countdown
progress/total, timed sleeps, outgoing capture HTTP requests, and the final
file-list refresh trigger. -/
inductive Event where
  | setCountdownProgress (v : ℚ)
  | setCountdownTotal (v : ℚ)
  | sleep (ms : ℚ)
  | captureRequest (port : String)
  | triggerFileUpdate
deriving DecidableEq

/-- Function `captureImage` (src/web-simple/src/App.tsx lines 56-59):
`if (!cameras?.[0]?.port) return;` then one GET /api/capture/image with the
first camera's port.  `cameras` may still be `undefined` (`Option`), the
list may be empty, or the port may be the empty string (both falsy). -/
def captureImage (cameras : Option (List Camera)) : List Event :=
  match cameras with
  | none => []
  | some cs =>
    match cs.head? with
    | none => []
    | some c => if c.port = "" then [] else [Event.captureRequest c.port]

/-- One countdown phase of total duration `d` ms at granularity `g`
(src/web-simple/src/App.tsx lines 86-92 and 96-102): reset the progress to
0, publish the phase total, then `g` iterations each sleeping `d / g` ms and
publishing the cumulative elapsed time `d * ((i + 1) / g)`. -/
def countdownPhase (d : ℚ) (g : ℕ) : List Event :=
  [Event.setCountdownProgress 0, Event.setCountdownTotal d]
    ++ (List.range g).flatMap (fun i =>
        [Event.sleep (d / (g : ℚ)),
         Event.setCountdownProgress (d * (((i : ℚ) + 1) / (g : ℚ)))])

/-- The whole capture-run effect (src/web-simple/src/App.tsx lines 82-112):
`if (!triggerPhoto) return;` then an initial countdown phase, a capture, a
`sleep(1000 + PHOTO_POST_WAIT)`, then `numPhotos - 1` further rounds of
subsequent-delay countdown, capture and post-capture sleep, and finally a
progress reset, a 3000 ms cooldown and the file-update trigger. -/
def photoRunEvents (triggerPhoto : ℕ) (cameras : Option (List Camera))
    (photoTimeInitial photoTimeSubsequent photoPostWait : ℚ)
    (spinnerGranularity numPhotos : ℕ) : List Event :=
  if triggerPhoto = 0 then []
  else
    countdownPhase photoTimeInitial spinnerGranularity
      ++ captureImage cameras
      ++ [Event.sleep (1000 + photoPostWait)]
      ++ (List.range (numPhotos - 1)).flatMap (fun _ =>
          countdownPhase photoTimeSubsequent spinnerGranularity
            ++ captureImage cameras
            ++ [Event.sleep (1000 + photoPostWait)])
      ++ [Event.setCountdownProgress 0, Event.setCountdownTotal 0,
          Event.sleep 3000, Event.triggerFileUpdate]

/-- Constant `PHOTO_TIME_INITIAL` (src/web-simple/src/App.tsx line 13). -/
def PHOTO_TIME_INITIAL : ℚ := 5000

/-- Constant `PHOTO_TIME_SUBSEQUENT` (line 15). -/
def PHOTO_TIME_SUBSEQUENT : ℚ := 3000

/-- Constant `PHOTO_POST_WAIT` (line 17). -/
def PHOTO_POST_WAIT : ℚ := 0

/-- Constant `SPINNER_GRANULARITY` (line 19). -/
def SPINNER_GRANULARITY : ℕ := 10

/-- Constant `NUM_PHOTOS` (line 21). -/
def NUM_PHOTOS : ℕ := 3

/-- The capture-run effect instantiated with the source's compiled-in
constants, triggered once. -/
def sourceRun (cameras : Option (List Camera)) : List Event :=
  photoRunEvents 1 cameras PHOTO_TIME_INITIAL PHOTO_TIME_SUBSEQUENT
    PHOTO_POST_WAIT SPINNER_GRANULARITY NUM_PHOTOS

/-- Whether an event is an outgoing capture HTTP request. -/
def isCaptureRequest : Event → Bool
  | Event.captureRequest _ => true
  | _ => false

/-- Number of capture requests issued in an effect trace. -/
def countCaptures (es : List Event) : ℕ := es.countP isCaptureRequest

/-- Spec-side description of a strictly serialized run (§4.2 of the spec):
`n` consecutive blocks, the `k`-th being a full countdown phase (initial
delay for the first, subsequent delay for the rest) followed by exactly one
capture request and the post-capture wait, closed by the terminal progress
reset, cooldown and hierarchy-refresh trigger. -/
def specSerializedRun (port : String) (dInit dSub wait : ℚ) (g n : ℕ) :
    List Event :=
  (List.range n).flatMap (fun k =>
    countdownPhase (if k = 0 then dInit else dSub) g
      ++ [Event.captureRequest port, Event.sleep (1000 + wait)])
    ++ [Event.setCountdownProgress 0, Event.setCountdownTotal 0,
        Event.sleep 3000, Event.triggerFileUpdate]

/-- The countdown-progress values published in a trace, in order
(the successive arguments of `setCountdownProgress`). -/
def progressValues : List Event → List ℚ
  | [] => []
  | Event.setCountdownProgress v :: es => v :: progressValues es
  | Event.setCountdownTotal _ :: es => progressValues es
  | Event.sleep _ :: es => progressValues es
  | Event.captureRequest _ :: es => progressValues es
  | Event.triggerFileUpdate :: es => progressValues es

/-- The `g` cumulative progress samples of a phase of duration `d`:
`d * ((i + 1) / g)` for `i = 0, …, g - 1`
(src/web-simple/src/App.tsx lines 90 and 100). -/
def phaseSamples (d : ℚ) (g : ℕ) : List ℚ :=
  (List.range g).map fun i : ℕ => d * (((i : ℚ) + 1) / (g : ℚ))

/-- Predicate `capturesFollowedBy w es` holds when every capture request in the trace
`es` is immediately followed by a sleep of exactly `w` milliseconds. -/
def capturesFollowedBy (w : ℚ) : List Event → Bool
  | [] => true
  | Event.captureRequest _ :: rest =>
      (match rest.head? with
       | some (Event.sleep ms) => ms == w
       | _ => false) && capturesFollowedBy w rest
  | Event.setCountdownProgress _ :: rest => capturesFollowedBy w rest
  | Event.setCountdownTotal _ :: rest => capturesFollowedBy w rest
  | Event.sleep _ :: rest => capturesFollowedBy w rest
  | Event.triggerFileUpdate :: rest => capturesFollowedBy w rest

/-- File metadata (interface `File`, src/web-simple/src/App.tsx lines
35-44), fields in source order. -/
structure FileData where
  name : String
  height : ℤ
  mtime : ℤ
  permissions : ℤ
  size : ℤ
  mimetype : String
  width : ℤ
deriving DecidableEq

/-- A node of the remote file hierarchy: the tagged union of the `Folder`
and `File` interfaces (src/web-simple/src/App.tsx lines 29-44). -/
inductive FileNode where
  | file (data : FileData)
  | folder (name : String) (children : List FileNode)

mutual

/-- Function `recurseFiles` (src/web-simple/src/App.tsx lines 114-123): a file
yields `[(path, file)]` when its mimetype is exactly "image/jpeg" and `[]`
otherwise; a folder recurses into its children with the accumulated path
`path + "/" + folder.name`. -/
def recurseFiles : FileNode → String → List (String × FileData)
  | FileNode.file f, path =>
      if f.mimetype = "image/jpeg" then [(path, f)] else []
  | FileNode.folder name children, path =>
      recurseFilesList children (path ++ "/" ++ name)

/-- The `folder.children.flatMap(c => recurseFiles(c, path))` call of
line 120, written as structural recursion over the children list. -/
def recurseFilesList : List FileNode → String → List (String × FileData)
  | [], _ => []
  | c :: cs, path => recurseFiles c path ++ recurseFilesList cs path

end

mutual

/-- Spec-side depth-first left-to-right traversal collecting every file
with its accumulated path, with no mimetype filter (§4.4 of the spec). -/
def dfsFiles : FileNode → String → List (String × FileData)
  | FileNode.file f, path => [(path, f)]
  | FileNode.folder name children, path =>
      dfsFilesList children (path ++ "/" ++ name)

/-- Depth-first traversal of a children list. -/
def dfsFilesList : List FileNode → String → List (String × FileData)
  | [], _ => []
  | c :: cs, path => dfsFiles c path ++ dfsFilesList cs path

end

/-- The ascending key order of `sortBy(pairs, "[1].mtime")`
(src/web-simple/src/App.tsx line 126). -/
def mtimeLe (x y : String × FileData) : Prop := x.2.mtime ≤ y.2.mtime

instance : DecidableRel mtimeLe := fun x y => Int.decLe x.2.mtime y.2.mtime

instance : IsTotal (String × FileData) mtimeLe :=
  ⟨fun x y => Int.le_total x.2.mtime y.2.mtime⟩

instance : IsTrans (String × FileData) mtimeLe :=
  ⟨fun _ _ _ h₁ h₂ => le_trans h₁ h₂⟩

/-- Function `latestFiles` (src/web-simple/src/App.tsx lines 124-128): when a
hierarchy has been fetched, flatten the root folder's children with
`recurseFiles(c, "")`, stable-sort ascending by `pair[1].mtime` (lodash
`sortBy` is a stable sort, modelled by insertion sort), reverse, and keep
the first 3.  The argument stands for `cameraFiles`, represented by the
root folder's children since the root's own name is never used. -/
def latestFiles (cameraFiles : Option (List FileNode)) :
    List (String × FileData) :=
  ((match cameraFiles with
    | some children =>
        List.insertionSort mtimeLe (recurseFilesList children "")
    | none => []).reverse).take 3

/-- A camera setting (interface `Setting`, src/web/luum/src/App.tsx lines
129-140), fields in source order.  `value` has TypeScript type `any`, so
the model is generic in its type. -/
structure Setting (α : Type) where
  changed : ℤ
  id : ℤ
  info : String
  label : String
  name : String
  path : String
  readonly : ℤ
  type : ℤ
  value : α
  choices : Option (List String)
deriving DecidableEq

/-- JavaScript `Array.prototype.indexOf`: index of the first occurrence,
-1 when absent (used as `favorites.indexOf(setting.path)`,
src/web/luum/src/App.tsx line 217). -/
def jsIndexOf : List String → String → ℤ
  | [], _ => -1
  | a :: as, x =>
      if a = x then 0
      else if jsIndexOf as x = -1 then -1 else jsIndexOf as x + 1

/-- lodash `findIndex(settings, {id: setting.id})`: index of the first
setting whose `id` matches, -1 when absent
(src/web/luum/src/App.tsx line 218). -/
def jsFindIndexById {α : Type} : List (Setting α) → ℤ → ℤ
  | [], _ => -1
  | s :: rest, i =>
      if s.id = i then 0
      else if jsFindIndexById rest i = -1 then -1
      else jsFindIndexById rest i + 1

/-- The two lodash `sortBy` iteratees of src/web/luum/src/App.tsx lines
216-219: primary key `-favorites.indexOf(setting.path)`, secondary key
`findIndex(settings, {id: setting.id})`. -/
def settingKey {α : Type} (favorites : List String)
    (settings : List (Setting α)) (s : Setting α) : ℤ × ℤ :=
  (-(jsIndexOf favorites s.path), jsFindIndexById settings s.id)

/-- lodash compares the iteratee key tuples lexicographically, ascending. -/
def settingLe {α : Type} (favorites : List String)
    (settings : List (Setting α)) (s t : Setting α) : Prop :=
  (settingKey favorites settings s).1 < (settingKey favorites settings t).1 ∨
    ((settingKey favorites settings s).1 =
        (settingKey favorites settings t).1 ∧
      (settingKey favorites settings s).2 ≤
        (settingKey favorites settings t).2)

instance {α : Type} (favorites : List String)
    (settings : List (Setting α)) :
    DecidableRel (settingLe favorites settings) := fun s t => by
  unfold settingLe
  infer_instance

instance {α : Type} (favorites : List String)
    (settings : List (Setting α)) :
    IsTotal (Setting α) (settingLe favorites settings) :=
  ⟨fun s t => by unfold settingLe; omega⟩

instance {α : Type} (favorites : List String)
    (settings : List (Setting α)) :
    IsTrans (Setting α) (settingLe favorites settings) :=
  ⟨fun a b c h₁ h₂ => by
    unfold settingLe at h₁ h₂ ⊢
    omega⟩

/-- The displayed settings order (src/web/luum/src/App.tsx lines 216-219):
lodash `sortBy` — a stable sort by the two keys — modelled by insertion
sort on the lexicographic key order. -/
def displayedSettings {α : Type} (favorites : List String)
    (settings : List (Setting α)) : List (Setting α) :=
  List.insertionSort (settingLe favorites settings) settings

/-- Outcome of a single HTTP request attempt as observed by the client:
success, an error response carrying an HTTP status, or a network error
with no response object at all. -/
inductive RequestOutcome where
  | success
  | httpError (status : ℕ)
  | networkError
deriving DecidableEq

/-- A JavaScript exception escaping the update callback: the re-thrown
axios error, or the TypeError raised by reading `.status` of an undefined
`response`. -/
inductive JsError where
  | axiosError (status : ℕ)
  | typeError
deriving DecidableEq

/-- Observable result of one invocation of the setting-update callback. -/
structure UpdateResult where
  putIssued : Bool
  refetches : ℕ
  thrown : Option JsError
deriving DecidableEq

/-- The `onChange` update callback (src/web/luum/src/App.tsx lines
256-272): `if (setting.readonly) return;` — a truthy (non-zero) readonly
aborts before any request; otherwise the PUT is issued; on success, or on
an error response with status 500, `setTriggerRefresh(i => i + 1)`
re-fetches the settings list exactly once; an error response with any
other status is re-thrown, and a response-less error makes `resp.status`
itself throw a TypeError — in both throwing cases control never reaches
the re-fetch. -/
def onChangeUpdate (readonly : ℤ) (outcome : RequestOutcome) : UpdateResult :=
  if readonly ≠ 0 then ⟨false, 0, none⟩
  else
    match outcome with
    | RequestOutcome.success => ⟨true, 1, none⟩
    | RequestOutcome.httpError s =>
        if s ≠ 500 then ⟨true, 0, some (JsError.axiosError s)⟩
        else ⟨true, 1, none⟩
    | RequestOutcome.networkError => ⟨true, 0, some JsError.typeError⟩

/-- Kinds of editable controls produced by `renderSetting`. -/
inductive ControlKind where
  | textField
  | checkbox
  | selectBox
  | dateTimePicker
deriving DecidableEq

/-- What `renderSetting` returns: nothing (`null`), a TODO placeholder
text, or an editable control with its disabled flag. -/
inductive Rendered where
  | nothing
  | todoText (msg : String)
  | control (kind : ControlKind) (disabled : Bool)
deriving DecidableEq

/-- Function `renderSetting` (src/web/luum/src/App.tsx lines 161-204): dispatch on
the numeric `setting.type`; types 0, 1 and unknown types render `null`;
types 3 and 7 render a TODO placeholder; types 2, 4, 5, 6, 8 render a
control whose `disabled` prop is `!!setting.readonly`. -/
def renderSetting {α : Type} (s : Setting α) : Rendered :=
  if s.type = 0 ∨ s.type = 1 then Rendered.nothing
  else if s.type = 2 then
    Rendered.control ControlKind.textField (s.readonly != 0)
  else if s.type = 3 then Rendered.todoText "TODO: Implement slider"
  else if s.type = 4 then
    Rendered.control ControlKind.checkbox (s.readonly != 0)
  else if s.type = 5 ∨ s.type = 6 then
    Rendered.control ControlKind.selectBox (s.readonly != 0)
  else if s.type = 7 then Rendered.todoText "TODO: Implement button"
  else if s.type = 8 then
    Rendered.control ControlKind.dateTimePicker (s.readonly != 0)
  else Rendered.nothing

/-- Whether a rendered result is an enabled (not disabled) control. -/
def isEnabledControl : Rendered → Bool
  | Rendered.control _ disabled => !disabled
  | _ => false

/-- HTTP request method, as relevant to the axios-retry policy. -/
inductive HttpMethod where
  | get
  | head
  | options
  | put
  | delete
  | post
deriving DecidableEq

/-- Modelled from the axios-retry library: its IDEMPOTENT_HTTP_METHODS are
get, head, options, put and delete. -/
def idempotentMethod : HttpMethod → Bool
  | HttpMethod.post => false
  | _ => true

/-- Modelled from the axios-retry library (src/web-simple/src/App.tsx
line 8 registers `axiosRetry(axios, {retries: 3})` on the app's global
axios instance): the default retryCondition
`isNetworkOrIdempotentRequestError` retries network errors (no response)
for any method and 5xx error responses for idempotent methods; other
error responses, and successes, are not retried. -/
def defaultRetryCondition (m : HttpMethod) : RequestOutcome → Bool
  | RequestOutcome.success => false
  | RequestOutcome.networkError => true
  | RequestOutcome.httpError s =>
      idempotentMethod m && decide (500 ≤ s) && decide (s ≤ 599)

/-- Number of HTTP requests one axios call issues under axios-retry, given
the remaining retry budget and the outcome of each successive attempt
(`attempts i` is the outcome of the i-th attempt, 0-based, starting at
attempt index `i`). -/
def attemptsUsed (m : HttpMethod) (attempts : ℕ → RequestOutcome) :
    ℕ → ℕ → ℕ
  | 0, _ => 1
  | retriesLeft + 1, i =>
      match attempts i with
      | RequestOutcome.success => 1
      | o =>
          if defaultRetryCondition m o
          then 1 + attemptsUsed m attempts retriesLeft (i + 1)
          else 1

/-- Requests issued by one `captureImage` invocation in web-simple: a GET
through the axios instance wrapped by `axiosRetry(axios, {retries: 3})`
(src/web-simple/src/App.tsx lines 8 and 56-59). -/
def captureRequestsIssued (attempts : ℕ → RequestOutcome) : ℕ :=
  attemptsUsed HttpMethod.get attempts 3 0

/-- Requests issued by one `updateSetting` PUT in web/luum
(src/web/luum/src/App.tsx lines 260-264): that app never registers
axios-retry, so a single request is issued with no retries. -/
def updateRequestsIssued (attempts : ℕ → RequestOutcome) : ℕ :=
  attemptsUsed HttpMethod.put attempts 0 0

lemma countCaptures_append (l₁ l₂ : List Event) :
    countCaptures (l₁ ++ l₂) = countCaptures l₁ + countCaptures l₂ :=
  List.countP_append _ _ _

lemma countCaptures_countdownPhase (d : ℚ) (g : ℕ) :
    countCaptures (countdownPhase d g) = 0 := by
  simp only [countCaptures, countdownPhase, List.countP_eq_zero]
  intro e he
  simp only [List.cons_append, List.nil_append, List.mem_cons,
    List.mem_flatMap, List.mem_range, List.not_mem_nil, or_false] at he
  rcases he with h | h | ⟨i, _, h | h⟩ <;> subst h <;> simp [isCaptureRequest]

/-- The capture run with a usable first camera is exactly the spec-side
serialized run. -/
lemma photoRunEvents_eq_serialized (t : ℕ) (nm pt sm : String)
    (rest : List Camera) (d₁ d₂ w : ℚ) (g n : ℕ)
    (ht : t ≠ 0) (hp : pt ≠ "") (hn : 1 ≤ n) :
    photoRunEvents t (some (⟨nm, pt, sm⟩ :: rest)) d₁ d₂ w g n =
      specSerializedRun pt d₁ d₂ w g n := by
  obtain ⟨m, rfl⟩ := Nat.exists_eq_add_of_le hn
  simp only [photoRunEvents, if_neg ht, captureImage, List.head?_cons,
    if_neg hp, specSerializedRun, Nat.add_sub_cancel_left]
  rw [show 1 + m = m + 1 by omega, List.range_succ_eq_map]
  simp only [List.flatMap_cons, List.flatMap_map, Function.comp_def,
    Nat.succ_ne_zero, if_false, if_pos rfl, Nat.add_sub_cancel]
  simp [List.append_assoc]

lemma countCaptures_serialized (pt : String) (d₁ d₂ w : ℚ) (g n : ℕ) :
    countCaptures (specSerializedRun pt d₁ d₂ w g n) = n := by
  induction n with
  | zero => simp [specSerializedRun, countCaptures, isCaptureRequest]
  | succ m ih =>
    simp only [specSerializedRun, List.range_succ, List.flatMap_append,
      List.flatMap_cons, List.flatMap_nil, List.append_nil,
      countCaptures_append, countCaptures_countdownPhase] at ih ⊢
    simp [countCaptures, List.countP_cons, isCaptureRequest] at ih ⊢
    omega

/-- C1: a capture run triggered (`triggerPhoto ≠ 0`) while the first camera
has a non-empty port issues exactly `numPhotos` capture requests, and the
trace is precisely the strictly serialized sequence of countdown-capture-
wait blocks: each capture follows its full countdown and the next countdown
starts only after the capture and its post-capture sleep. -/
theorem capture_run_serialized_shot_count (t : ℕ) (nm pt sm : String)
    (rest : List Camera) (d₁ d₂ w : ℚ) (g n : ℕ)
    (ht : t ≠ 0) (hp : pt ≠ "") (hn : 1 ≤ n) :
    countCaptures (photoRunEvents t (some (⟨nm, pt, sm⟩ :: rest)) d₁ d₂ w g n)
        = n ∧
      photoRunEvents t (some (⟨nm, pt, sm⟩ :: rest)) d₁ d₂ w g n =
        specSerializedRun pt d₁ d₂ w g n := by
  have h := photoRunEvents_eq_serialized t nm pt sm rest d₁ d₂ w g n ht hp hn
  exact ⟨by rw [h]; exact countCaptures_serialized pt d₁ d₂ w g n, h⟩

/-- Witness for C1: the source constants (3 shots, granularity 10,
delays 5000/3000/0) with a concrete camera. -/
theorem capture_run_serialized_shot_count_witness :
    countCaptures (photoRunEvents 1 (some [⟨"Canon", "usb:001,004", "cam"⟩])
        PHOTO_TIME_INITIAL PHOTO_TIME_SUBSEQUENT PHOTO_POST_WAIT
        SPINNER_GRANULARITY NUM_PHOTOS) = NUM_PHOTOS ∧
      photoRunEvents 1 (some [⟨"Canon", "usb:001,004", "cam"⟩])
        PHOTO_TIME_INITIAL PHOTO_TIME_SUBSEQUENT PHOTO_POST_WAIT
        SPINNER_GRANULARITY NUM_PHOTOS =
        specSerializedRun "usb:001,004" PHOTO_TIME_INITIAL
          PHOTO_TIME_SUBSEQUENT PHOTO_POST_WAIT SPINNER_GRANULARITY
          NUM_PHOTOS :=
  capture_run_serialized_shot_count 1 "Canon" "usb:001,004" "cam" []
    PHOTO_TIME_INITIAL PHOTO_TIME_SUBSEQUENT PHOTO_POST_WAIT
    SPINNER_GRANULARITY NUM_PHOTOS (by decide) (by decide) (by decide)

lemma progressValues_append (l₁ l₂ : List Event) :
    progressValues (l₁ ++ l₂) = progressValues l₁ ++ progressValues l₂ := by
  induction l₁ with
  | nil => rfl
  | cons e es ih => cases e <;> simp [progressValues, ih]

lemma progressValues_sleep_progress_pairs (s f : ℕ → ℚ) (l : List ℕ) :
    progressValues (l.flatMap fun i =>
      [Event.sleep (s i), Event.setCountdownProgress (f i)]) = l.map f := by
  induction l with
  | nil => rfl
  | cons a tl ih =>
    rw [List.flatMap_cons, progressValues_append, ih]
    simp [progressValues]

lemma progressValues_countdownPhase (d : ℚ) (g : ℕ) :
    progressValues (countdownPhase d g) = 0 :: phaseSamples d g := by
  show progressValues
      (Event.setCountdownProgress 0 :: Event.setCountdownTotal d ::
        ((List.range g).flatMap fun i =>
          [Event.sleep (d / (g : ℚ)),
           Event.setCountdownProgress (d * (((i : ℚ) + 1) / (g : ℚ)))])) =
    0 :: phaseSamples d g
  simp only [progressValues]
  rw [progressValues_sleep_progress_pairs (fun _ => d / (g : ℚ))
    (fun i : ℕ => d * (((i : ℚ) + 1) / (g : ℚ)))]
  rfl

/-- C2: a countdown phase of duration `d ≥ 0` and granularity `g ≥ 1`
first resets progress to 0 and then emits exactly `g` samples; the samples
are monotonically non-decreasing, the `i`-th (0-based) sample is the
cumulative elapsed time `d * ((i + 1) / g)`, the final sample is `d`, and
with the source constants `d = 5000`, `g = 10` the samples are
`500, 1000, …, 5000`. -/
theorem countdown_progress_samples (d : ℚ) (g : ℕ) (hd : 0 ≤ d) (hg : 1 ≤ g) :
    progressValues (countdownPhase d g) = 0 :: phaseSamples d g ∧
      (phaseSamples d g).length = g ∧
      List.Sorted (· ≤ ·) (phaseSamples d g) ∧
      (∀ i : ℕ, i < g →
        (phaseSamples d g)[i]? = some (d * (((i : ℚ) + 1) / (g : ℚ)))) ∧
      (phaseSamples d g).getLast? = some d ∧
      phaseSamples 5000 10 =
        [500, 1000, 1500, 2000, 2500, 3000, 3500, 4000, 4500, 5000] := by
  have hg0 : (0 : ℚ) < (g : ℚ) := by exact_mod_cast hg
  refine ⟨progressValues_countdownPhase d g, by simp [phaseSamples], ?_, ?_, ?_, ?_⟩
  · unfold phaseSamples
    refine List.Pairwise.map _ ?_ (List.pairwise_lt_range g)
    intro a b hab
    have hab' : (a : ℚ) ≤ (b : ℚ) := by exact_mod_cast Nat.le_of_lt hab
    apply mul_le_mul_of_nonneg_left _ hd
    exact (div_le_div_iff_of_pos_right hg0).mpr (by linarith)
  · intro i hi
    simp [phaseSamples, List.getElem?_map, List.getElem?_range, hi]
  · rw [List.getLast?_eq_getElem?]
    have hlen : (phaseSamples d g).length = g := by simp [phaseSamples]
    have hglt : g - 1 < g := by omega
    rw [hlen]
    simp only [phaseSamples, List.getElem?_map, List.getElem?_range, hglt]
    have hcast : ((g - 1 : ℕ) : ℚ) + 1 = (g : ℚ) := by
      rw [Nat.cast_sub hg]
      push_cast
      ring
    show some (d * ((((g - 1 : ℕ) : ℚ) + 1) / (g : ℚ))) = some d
    rw [hcast, div_self (ne_of_gt hg0), mul_one]
  · have hr : List.range 10 = [0, 1, 2, 3, 4, 5, 6, 7, 8, 9] := rfl
    simp only [phaseSamples, hr, List.map_cons, List.map_nil]
    norm_num

/-- Witness for C2 at the source constants `d = 5000`, `g = 10`. -/
theorem countdown_progress_samples_witness :
    progressValues (countdownPhase 5000 10) = 0 :: phaseSamples 5000 10 ∧
      (phaseSamples 5000 10).length = 10 ∧
      List.Sorted (· ≤ ·) (phaseSamples 5000 10) ∧
      (∀ i : ℕ, i < 10 →
        (phaseSamples 5000 10)[i]? = some (5000 * (((i : ℚ) + 1) / (10 : ℚ)))) ∧
      (phaseSamples 5000 10).getLast? = some 5000 ∧
      phaseSamples 5000 10 =
        [500, 1000, 1500, 2000, 2500, 3000, 3500, 4000, 4500, 5000] :=
  countdown_progress_samples 5000 10 (by decide) (by decide)

lemma mem_countdownPhase_not_capture (d : ℚ) (g : ℕ) :
    ∀ e ∈ countdownPhase d g, isCaptureRequest e = false := by
  intro e he
  simp only [countdownPhase, List.cons_append, List.nil_append, List.mem_cons,
    List.mem_flatMap, List.mem_range, List.not_mem_nil, or_false] at he
  rcases he with h | h | ⟨i, _, h | h⟩ <;> subst h <;> simp [isCaptureRequest]

lemma capturesFollowedBy_append_of_no_capture (w : ℚ) (l₁ l₂ : List Event)
    (h : ∀ e ∈ l₁, isCaptureRequest e = false) :
    capturesFollowedBy w (l₁ ++ l₂) = capturesFollowedBy w l₂ := by
  induction l₁ with
  | nil => rfl
  | cons e es ih =>
    have he : isCaptureRequest e = false := h e (List.mem_cons_self e es)
    have hes : ∀ e ∈ es, isCaptureRequest e = false :=
      fun x hx => h x (List.mem_cons_of_mem e hx)
    cases e with
    | captureRequest p => simp [isCaptureRequest] at he
    | setCountdownProgress v => simpa [capturesFollowedBy] using ih hes
    | setCountdownTotal v => simpa [capturesFollowedBy] using ih hes
    | sleep ms => simpa [capturesFollowedBy] using ih hes
    | triggerFileUpdate => simpa [capturesFollowedBy] using ih hes

lemma specSerializedRun_succ (pt : String) (d₁ d₂ w : ℚ) (g n : ℕ) :
    specSerializedRun pt d₁ d₂ w g (n + 1) =
      countdownPhase d₁ g
        ++ (Event.captureRequest pt :: Event.sleep (1000 + w)
            :: specSerializedRun pt d₂ d₂ w g n) := by
  simp only [specSerializedRun, List.range_succ_eq_map, List.flatMap_cons,
    List.flatMap_map, Function.comp_def, Nat.succ_ne_zero, if_false,
    if_pos rfl, ite_self]
  simp [List.append_assoc]

lemma capturesFollowedBy_serialized (pt : String) (d₁ d₂ w : ℚ) (g n : ℕ) :
    capturesFollowedBy (1000 + w) (specSerializedRun pt d₁ d₂ w g n) = true := by
  induction n generalizing d₁ with
  | zero => rfl
  | succ m ih =>
    rw [specSerializedRun_succ,
      capturesFollowedBy_append_of_no_capture _ _ _
        (mem_countdownPhase_not_capture d₁ g)]
    simp only [capturesFollowedBy, List.head?_cons, beq_self_eq_true,
      Bool.true_and]
    exact ih d₂

/-- C8 (amended): after each capture request the run sleeps exactly
`1000 + photoPostWait` milliseconds — not `photoPostWait` alone — before the
next countdown phase or the terminal cooldown, and the run does contain
`numPhotos` capture requests. -/
theorem post_capture_wait_amended (t : ℕ) (nm pt sm : String)
    (rest : List Camera) (d₁ d₂ w : ℚ) (g n : ℕ)
    (ht : t ≠ 0) (hp : pt ≠ "") (hn : 1 ≤ n) :
    capturesFollowedBy (1000 + w)
        (photoRunEvents t (some (⟨nm, pt, sm⟩ :: rest)) d₁ d₂ w g n) = true ∧
      countCaptures
        (photoRunEvents t (some (⟨nm, pt, sm⟩ :: rest)) d₁ d₂ w g n) = n := by
  rw [photoRunEvents_eq_serialized t nm pt sm rest d₁ d₂ w g n ht hp hn]
  exact ⟨capturesFollowedBy_serialized pt d₁ d₂ w g n,
    countCaptures_serialized pt d₁ d₂ w g n⟩

/-- Witness for the amended C8 at the source constants. -/
theorem post_capture_wait_amended_witness :
    capturesFollowedBy (1000 + PHOTO_POST_WAIT)
        (photoRunEvents 1 (some [⟨"Canon", "usb:001,004", "cam"⟩])
          PHOTO_TIME_INITIAL PHOTO_TIME_SUBSEQUENT PHOTO_POST_WAIT
          SPINNER_GRANULARITY NUM_PHOTOS) = true ∧
      countCaptures
        (photoRunEvents 1 (some [⟨"Canon", "usb:001,004", "cam"⟩])
          PHOTO_TIME_INITIAL PHOTO_TIME_SUBSEQUENT PHOTO_POST_WAIT
          SPINNER_GRANULARITY NUM_PHOTOS) = NUM_PHOTOS :=
  post_capture_wait_amended 1 "Canon" "usb:001,004" "cam" []
    PHOTO_TIME_INITIAL PHOTO_TIME_SUBSEQUENT PHOTO_POST_WAIT
    SPINNER_GRANULARITY NUM_PHOTOS (by decide) (by decide) (by decide)

/-- Counterexample to C8 as stated: in the run with the source constants
(`PHOTO_POST_WAIT = 0`) the sleep following each capture is 1000 ms, so it
is not the case that every capture is followed by a sleep of exactly
`PHOTO_POST_WAIT` milliseconds, even though the run contains captures. -/
theorem post_capture_wait_counterexample :
    capturesFollowedBy PHOTO_POST_WAIT
        (sourceRun (some [⟨"Canon", "usb:001,004", "cam"⟩])) = false ∧
      countCaptures (sourceRun (some [⟨"Canon", "usb:001,004", "cam"⟩])) = 3 ∧
      PHOTO_POST_WAIT = 0 := by
  have hrun : sourceRun (some [⟨"Canon", "usb:001,004", "cam"⟩]) =
      specSerializedRun "usb:001,004" PHOTO_TIME_INITIAL PHOTO_TIME_SUBSEQUENT
        PHOTO_POST_WAIT SPINNER_GRANULARITY NUM_PHOTOS :=
    photoRunEvents_eq_serialized 1 "Canon" "usb:001,004" "cam" []
      PHOTO_TIME_INITIAL PHOTO_TIME_SUBSEQUENT PHOTO_POST_WAIT
      SPINNER_GRANULARITY NUM_PHOTOS (by decide) (by decide) (by decide)
  refine ⟨?_, ?_, rfl⟩
  · rw [hrun, show NUM_PHOTOS = 2 + 1 from rfl, specSerializedRun_succ,
      capturesFollowedBy_append_of_no_capture _ _ _
        (mem_countdownPhase_not_capture _ _)]
    simp only [capturesFollowedBy, List.head?_cons]
    have h1000 : ((1000 : ℚ) + PHOTO_POST_WAIT == PHOTO_POST_WAIT) = false := by
      rw [beq_eq_false_iff_ne]
      simp only [PHOTO_POST_WAIT]
      norm_num
    rw [h1000, Bool.false_and]
  · rw [hrun]
    exact countCaptures_serialized _ _ _ _ _ _

lemma filter_countdownPhase (d : ℚ) (g : ℕ) :
    (countdownPhase d g).filter (fun e => !isCaptureRequest e) =
      countdownPhase d g :=
  List.filter_eq_self.mpr
    (by intro e he; simp [mem_countdownPhase_not_capture d g e he])

lemma filter_flatMap_eq {α β : Type} (p : β → Bool) (f : α → List β)
    (l : List α) :
    (l.flatMap f).filter p = l.flatMap fun x => (f x).filter p := by
  induction l with
  | nil => rfl
  | cons a tl ih => simp [List.flatMap_cons, List.filter_append, ih]

/-- C10: when no camera with a non-empty port is available (`captureImage`
produces no request — `cameras` undefined, empty, or first port empty), the
triggered run issues zero capture requests, and its trace is exactly the
trace of a run with a usable camera with the capture requests deleted:
every countdown phase, progress update and delay still happens. -/
theorem run_without_camera (t : ℕ) (cams : Option (List Camera))
    (nm pt sm : String) (rest : List Camera) (d₁ d₂ w : ℚ) (g n : ℕ)
    (hc : captureImage cams = []) (hp : pt ≠ "") :
    countCaptures (photoRunEvents t cams d₁ d₂ w g n) = 0 ∧
      photoRunEvents t cams d₁ d₂ w g n =
        (photoRunEvents t (some (⟨nm, pt, sm⟩ :: rest)) d₁ d₂ w g n).filter
          (fun e => !isCaptureRequest e) := by
  have hgood : captureImage (some (⟨nm, pt, sm⟩ :: rest)) =
      [Event.captureRequest pt] := by
    simp [captureImage, hp]
  have heq : photoRunEvents t cams d₁ d₂ w g n =
      (photoRunEvents t (some (⟨nm, pt, sm⟩ :: rest)) d₁ d₂ w g n).filter
        (fun e => !isCaptureRequest e) := by
    by_cases ht : t = 0
    · simp [photoRunEvents, ht]
    · simp only [photoRunEvents, if_neg ht, hc, hgood, List.filter_append,
        filter_countdownPhase, filter_flatMap_eq]
      simp [List.filter_cons, isCaptureRequest]
  refine ⟨?_, heq⟩
  rw [heq, countCaptures, List.countP_filter]
  simp

/-- Witness for C10: trigger with an empty camera list versus a usable
camera, at the source constants. -/
theorem run_without_camera_witness :
    countCaptures (photoRunEvents 1 (some []) PHOTO_TIME_INITIAL
        PHOTO_TIME_SUBSEQUENT PHOTO_POST_WAIT SPINNER_GRANULARITY
        NUM_PHOTOS) = 0 ∧
      photoRunEvents 1 (some []) PHOTO_TIME_INITIAL PHOTO_TIME_SUBSEQUENT
          PHOTO_POST_WAIT SPINNER_GRANULARITY NUM_PHOTOS =
        (photoRunEvents 1 (some [⟨"Canon", "usb:001,004", "cam"⟩])
            PHOTO_TIME_INITIAL PHOTO_TIME_SUBSEQUENT PHOTO_POST_WAIT
            SPINNER_GRANULARITY NUM_PHOTOS).filter
          (fun e => !isCaptureRequest e) :=
  run_without_camera 1 (some []) "Canon" "usb:001,004" "cam" []
    PHOTO_TIME_INITIAL PHOTO_TIME_SUBSEQUENT PHOTO_POST_WAIT
    SPINNER_GRANULARITY NUM_PHOTOS rfl (by decide)

mutual

theorem recurseFiles_eq_dfs_filter (node : FileNode) (path : String) :
    recurseFiles node path =
      (dfsFiles node path).filter fun pf =>
        decide (pf.2.mimetype = "image/jpeg") := by
  cases node with
  | file f =>
    by_cases h : f.mimetype = "image/jpeg" <;>
      simp [recurseFiles, dfsFiles, List.filter, h]
  | folder name children =>
    simp only [recurseFiles, dfsFiles]
    exact recurseFilesList_eq_dfs_filter children (path ++ "/" ++ name)

theorem recurseFilesList_eq_dfs_filter (cs : List FileNode) (path : String) :
    recurseFilesList cs path =
      (dfsFilesList cs path).filter fun pf =>
        decide (pf.2.mimetype = "image/jpeg") := by
  cases cs with
  | nil => rfl
  | cons c cs' =>
    simp only [recurseFilesList, dfsFilesList, List.filter_append]
    rw [recurseFiles_eq_dfs_filter c path,
      recurseFilesList_eq_dfs_filter cs' path]

end

/-- C7: flattening is the depth-first left-to-right traversal with the
accumulated `path + "/" + name` path, keeping a file exactly when its
mimetype is "image/jpeg"; on the hierarchy
`{folder "DCIM": [a.jpg mtime 100, b.png mtime 200, c.jpg mtime 300]}` the
latest list is `[("/DCIM", c.jpg), ("/DCIM", a.jpg)]`. -/
theorem flatten_keeps_exactly_jpegs :
    (∀ (node : FileNode) (path : String),
      recurseFiles node path =
        (dfsFiles node path).filter fun pf =>
          decide (pf.2.mimetype = "image/jpeg")) ∧
      latestFiles (some [FileNode.folder "DCIM"
          [FileNode.file ⟨"a.jpg", 0, 100, 0, 0, "image/jpeg", 0⟩,
           FileNode.file ⟨"b.png", 0, 200, 0, 0, "image/png", 0⟩,
           FileNode.file ⟨"c.jpg", 0, 300, 0, 0, "image/jpeg", 0⟩]]) =
        [("/DCIM", ⟨"c.jpg", 0, 300, 0, 0, "image/jpeg", 0⟩),
         ("/DCIM", ⟨"a.jpg", 0, 100, 0, 0, "image/jpeg", 0⟩)] :=
  ⟨recurseFiles_eq_dfs_filter, by decide⟩

lemma pair_sublist_total {α : Type} {l : List α} {a b : α}
    (ha : a ∈ l) (hb : b ∈ l) (hab : a ≠ b) :
    [a, b].Sublist l ∨ [b, a].Sublist l := by
  induction l with
  | nil => cases ha
  | cons x xs ih =>
    rcases List.mem_cons.mp ha with rfl | ha'
    · have hb' : b ∈ xs := by
        rcases List.mem_cons.mp hb with h | h
        · exact absurd h.symm hab
        · exact h
      exact Or.inl ((List.singleton_sublist.mpr hb').cons₂ a)
    · rcases List.mem_cons.mp hb with rfl | hb'
      · exact Or.inr ((List.singleton_sublist.mpr ha').cons₂ b)
      · rcases ih ha' hb' with h | h
        · exact Or.inl (h.cons x)
        · exact Or.inr (h.cons x)

lemma pair_sublist_asymm {α : Type} {a b : α} (hab : a ≠ b) :
    ∀ {l : List α}, l.Nodup → [a, b].Sublist l → [b, a].Sublist l → False := by
  intro l
  induction l with
  | nil => intro _ h _; simp at h
  | cons x xs ih =>
    intro hnd h₁ h₂
    have hx : x ∉ xs := (List.nodup_cons.mp hnd).1
    have hnd' : xs.Nodup := (List.nodup_cons.mp hnd).2
    cases h₁ with
    | cons _ h₁' =>
      cases h₂ with
      | cons _ h₂' => exact ih hnd' h₁' h₂'
      | cons₂ _ h₂' => exact hx (h₁'.subset (by simp))
    | cons₂ _ h₁' =>
      cases h₂ with
      | cons _ h₂' => exact hx (h₂'.subset (by simp))
      | cons₂ _ h₂' => exact hab rfl

/-- C5 (amended): the latest-captures ranking has at most 3 entries and is
sorted non-increasing by `mtime`; entries with equal `mtime` appear in
REVERSE depth-first traversal order (the stable ascending sort is reversed
whole, which reverses ties as well), assuming the flattened list has no
duplicate entries. -/
theorem latest_files_ranking_amended (children : List FileNode)
    (hnd : (recurseFilesList children "").Nodup) :
    (latestFiles (some children)).length ≤ 3 ∧
      List.Sorted (fun x y : String × FileData => y.2.mtime ≤ x.2.mtime)
        (latestFiles (some children)) ∧
      ∀ x y : String × FileData,
        [x, y].Sublist (latestFiles (some children)) →
        x.2.mtime = y.2.mtime →
        [y, x].Sublist (recurseFilesList children "") := by
  have hlf : latestFiles (some children) =
      ((List.insertionSort mtimeLe (recurseFilesList children "")).reverse).take
        3 := rfl
  have hperm := List.perm_insertionSort mtimeLe (recurseFilesList children "")
  have hnds : (List.insertionSort mtimeLe (recurseFilesList children "")).Nodup :=
    hperm.nodup_iff.mpr hnd
  refine ⟨?_, ?_, ?_⟩
  · rw [hlf]
    exact List.length_take_le _ _
  · have hs : List.Sorted mtimeLe
        (List.insertionSort mtimeLe (recurseFilesList children "")) :=
      List.sorted_insertionSort mtimeLe _
    have hrev : List.Pairwise (fun x y => mtimeLe y x)
        (List.insertionSort mtimeLe (recurseFilesList children "")).reverse :=
      List.pairwise_reverse.mpr hs
    rw [hlf]
    exact List.Pairwise.sublist (List.take_sublist _ _) hrev
  · intro x y hxy hmt
    have h1 : [x, y].Sublist
        ((List.insertionSort mtimeLe (recurseFilesList children "")).reverse) := by
      rw [hlf] at hxy
      exact hxy.trans (List.take_sublist _ _)
    have h2 : [y, x].Sublist
        (List.insertionSort mtimeLe (recurseFilesList children "")) := by
      have h := h1.reverse
      simpa using h
    by_cases hxyeq : x = y
    · subst hxyeq
      have : ([x, x] : List (String × FileData)).Nodup :=
        List.Nodup.sublist h2 hnds
      simp at this
    · have hxmem : x ∈ recurseFilesList children "" :=
        hperm.subset (h2.subset (by simp))
      have hymem : y ∈ recurseFilesList children "" :=
        hperm.subset (h2.subset (by simp))
      rcases pair_sublist_total hymem hxmem (fun h => hxyeq h.symm) with h | h
      · exact h
      · exfalso
        have hst : [x, y].Sublist
            (List.insertionSort mtimeLe (recurseFilesList children "")) :=
          List.pair_sublist_insertionSort (le_of_eq hmt) h
        exact pair_sublist_asymm hxyeq hnds hst h2

/-- Witness for the amended C5 at the Scenario-B hierarchy. -/
theorem latest_files_ranking_amended_witness :
    (latestFiles (some [FileNode.folder "DCIM"
        [FileNode.file ⟨"a.jpg", 0, 100, 0, 0, "image/jpeg", 0⟩,
         FileNode.file ⟨"b.png", 0, 200, 0, 0, "image/png", 0⟩,
         FileNode.file ⟨"c.jpg", 0, 300, 0, 0, "image/jpeg", 0⟩]])).length ≤ 3 ∧
      List.Sorted (fun x y : String × FileData => y.2.mtime ≤ x.2.mtime)
        (latestFiles (some [FileNode.folder "DCIM"
          [FileNode.file ⟨"a.jpg", 0, 100, 0, 0, "image/jpeg", 0⟩,
           FileNode.file ⟨"b.png", 0, 200, 0, 0, "image/png", 0⟩,
           FileNode.file ⟨"c.jpg", 0, 300, 0, 0, "image/jpeg", 0⟩]])) ∧
      ∀ x y : String × FileData,
        [x, y].Sublist (latestFiles (some [FileNode.folder "DCIM"
          [FileNode.file ⟨"a.jpg", 0, 100, 0, 0, "image/jpeg", 0⟩,
           FileNode.file ⟨"b.png", 0, 200, 0, 0, "image/png", 0⟩,
           FileNode.file ⟨"c.jpg", 0, 300, 0, 0, "image/jpeg", 0⟩]])) →
        x.2.mtime = y.2.mtime →
        [y, x].Sublist (recurseFilesList [FileNode.folder "DCIM"
          [FileNode.file ⟨"a.jpg", 0, 100, 0, 0, "image/jpeg", 0⟩,
           FileNode.file ⟨"b.png", 0, 200, 0, 0, "image/png", 0⟩,
           FileNode.file ⟨"c.jpg", 0, 300, 0, 0, "image/jpeg", 0⟩]] "") :=
  latest_files_ranking_amended [FileNode.folder "DCIM"
      [FileNode.file ⟨"a.jpg", 0, 100, 0, 0, "image/jpeg", 0⟩,
       FileNode.file ⟨"b.png", 0, 200, 0, 0, "image/png", 0⟩,
       FileNode.file ⟨"c.jpg", 0, 300, 0, 0, "image/jpeg", 0⟩]]
    (by decide)

/-- Counterexample to C5 as stated: two jpeg files with EQUAL mtime, `a.jpg`
before `c.jpg` in depth-first traversal order, end up in the latest list
with `c.jpg` before `a.jpg` — equal-mtime entries appear in reverse
traversal order, not traversal order. -/
theorem latest_files_tie_counterexample :
    recurseFilesList [FileNode.folder "D"
        [FileNode.file ⟨"a.jpg", 0, 100, 0, 0, "image/jpeg", 0⟩,
         FileNode.file ⟨"c.jpg", 0, 100, 0, 0, "image/jpeg", 0⟩]] "" =
      [("/D", ⟨"a.jpg", 0, 100, 0, 0, "image/jpeg", 0⟩),
       ("/D", ⟨"c.jpg", 0, 100, 0, 0, "image/jpeg", 0⟩)] ∧
      latestFiles (some [FileNode.folder "D"
          [FileNode.file ⟨"a.jpg", 0, 100, 0, 0, "image/jpeg", 0⟩,
           FileNode.file ⟨"c.jpg", 0, 100, 0, 0, "image/jpeg", 0⟩]]) =
        [("/D", ⟨"c.jpg", 0, 100, 0, 0, "image/jpeg", 0⟩),
         ("/D", ⟨"a.jpg", 0, 100, 0, 0, "image/jpeg", 0⟩)] ∧
      (⟨"a.jpg", 0, 100, 0, 0, "image/jpeg", 0⟩ : FileData).mtime =
        (⟨"c.jpg", 0, 100, 0, 0, "image/jpeg", 0⟩ : FileData).mtime ∧
      (⟨"a.jpg", 0, 100, 0, 0, "image/jpeg", 0⟩ : FileData) ≠
        ⟨"c.jpg", 0, 100, 0, 0, "image/jpeg", 0⟩ := by
  refine ⟨by decide, by decide, rfl, by decide⟩

/-- C4: for a writable setting, the update callback re-fetches the
settings list exactly once with no surfaced error precisely when the PUT
succeeds or fails with the tolerated HTTP 500 status; in every other case
an error propagates to the caller and no re-fetch occurs. -/
theorem update_refetch_tolerance (o : RequestOutcome) :
    ((onChangeUpdate 0 o).refetches = 1 ∧ (onChangeUpdate 0 o).thrown = none ↔
        o = RequestOutcome.success ∨ o = RequestOutcome.httpError 500) ∧
      ((onChangeUpdate 0 o).refetches = 1 ∧ (onChangeUpdate 0 o).thrown = none ∨
        (onChangeUpdate 0 o).refetches = 0 ∧ (onChangeUpdate 0 o).thrown ≠ none) := by
  cases o with
  | success => simp [onChangeUpdate]
  | httpError s => by_cases h : s = 500 <;> simp [onChangeUpdate, h]
  | networkError => simp [onChangeUpdate]

/-- C9: a readonly setting (truthy `readonly`) makes any attempted update a
client-side no-op — no PUT is issued, no re-fetch, nothing thrown — and the
rendered control, when there is one, is disabled. -/
theorem readonly_rejects_update {α : Type} (s : Setting α)
    (o : RequestOutcome) (h : s.readonly ≠ 0) :
    onChangeUpdate s.readonly o = ⟨false, 0, none⟩ ∧
      isEnabledControl (renderSetting s) = false := by
  constructor
  · simp [onChangeUpdate, h]
  · have hb : (s.readonly != 0) = true := by simpa using h
    unfold renderSetting
    split_ifs <;> simp [isEnabledControl, hb]

/-- Witness for C9: a concrete readonly boolean-toggle setting. -/
theorem readonly_rejects_update_witness :
    onChangeUpdate
        (Setting.readonly ⟨0, 7, "", "AC Power", "acpower", "/main/status/acpower",
          1, 4, (0 : ℤ), none⟩) RequestOutcome.success = ⟨false, 0, none⟩ ∧
      isEnabledControl (renderSetting
        (⟨0, 7, "", "AC Power", "acpower", "/main/status/acpower",
          1, 4, (0 : ℤ), none⟩ : Setting ℤ)) = false :=
  readonly_rejects_update
    (⟨0, 7, "", "AC Power", "acpower", "/main/status/acpower",
      1, 4, (0 : ℤ), none⟩ : Setting ℤ) RequestOutcome.success (by decide)

lemma jsIndexOf_ge_neg_one (l : List String) (x : String) :
    -1 ≤ jsIndexOf l x := by
  induction l with
  | nil => simp [jsIndexOf]
  | cons a as ih =>
    simp only [jsIndexOf]
    split_ifs <;> omega

lemma jsIndexOf_neg_one_iff (l : List String) (x : String) :
    jsIndexOf l x = -1 ↔ x ∉ l := by
  induction l with
  | nil => simp [jsIndexOf]
  | cons a as ih =>
    have hge := jsIndexOf_ge_neg_one as x
    simp only [jsIndexOf, List.mem_cons]
    split_ifs with h h2
    · subst h
      simp
    · have hxa : x ≠ a := fun hx => h hx.symm
      simp [ih.mp h2, hxa]
    · constructor
      · intro hc
        omega
      · intro hc
        exact absurd (ih.mpr fun hm => hc (Or.inr hm)) h2

lemma jsIndexOf_mem_iff (l : List String) (x : String) :
    x ∈ l ↔ 0 ≤ jsIndexOf l x := by
  have hge := jsIndexOf_ge_neg_one l x
  have hni := jsIndexOf_neg_one_iff l x
  constructor
  · intro h
    rcases lt_or_le (jsIndexOf l x) 0 with hlt | hle
    · exact absurd h (hni.mp (by omega))
    · exact hle
  · intro h
    by_contra hn
    have := hni.mpr hn
    omega

lemma jsFindIndexById_ge_neg_one {α : Type} (l : List (Setting α)) (i : ℤ) :
    -1 ≤ jsFindIndexById l i := by
  induction l with
  | nil => simp [jsFindIndexById]
  | cons t rest ih =>
    simp only [jsFindIndexById]
    split_ifs <;> omega

lemma jsFindIndexById_nonneg_of_mem {α : Type} {l : List (Setting α)}
    {s : Setting α} (h : s ∈ l) : 0 ≤ jsFindIndexById l s.id := by
  induction l with
  | nil => cases h
  | cons t rest ih =>
    simp only [jsFindIndexById]
    rcases List.mem_cons.mp h with rfl | h'
    · simp
    · have := ih h'
      split_ifs <;> omega

lemma findIndexById_lt_of_pair_sublist {α : Type} :
    ∀ {settings : List (Setting α)} {x y : Setting α},
    (settings.map fun s => s.id).Nodup →
    [x, y].Sublist settings →
    jsFindIndexById settings x.id < jsFindIndexById settings y.id := by
  intro settings
  induction settings with
  | nil =>
    intro x y _ h
    simp at h
  | cons s rest ih =>
    intro x y hnd h
    have hmap : (s.id :: rest.map fun t => t.id).Nodup := by
      rw [← List.map_cons]
      exact hnd
    have hnd2 := List.nodup_cons.mp hmap
    have hsid : s.id ∉ rest.map fun t => t.id := hnd2.1
    have hnd' : (rest.map fun t => t.id).Nodup := hnd2.2
    cases h with
    | cons₂ _ h' =>
      have hy : y ∈ rest := List.singleton_sublist.mp h'
      have hyid : y.id ∈ rest.map fun t => t.id := List.mem_map_of_mem _ hy
      have hxy : s.id ≠ y.id := fun he => hsid (he ▸ hyid)
      have h0 : 0 ≤ jsFindIndexById rest y.id := jsFindIndexById_nonneg_of_mem hy
      simp only [jsFindIndexById, if_pos rfl, if_neg hxy]
      split_ifs <;> omega
    | cons _ h' =>
      have hx : x ∈ rest := h'.subset (by simp)
      have hy : y ∈ rest := h'.subset (by simp)
      have hxid : s.id ≠ x.id :=
        fun he => hsid (he ▸ List.mem_map_of_mem (fun t => t.id) hx)
      have hyid : s.id ≠ y.id :=
        fun he => hsid (he ▸ List.mem_map_of_mem (fun t => t.id) hy)
      have hlt := ih hnd' h'
      have h0x : 0 ≤ jsFindIndexById rest x.id := jsFindIndexById_nonneg_of_mem hx
      have h0y : 0 ≤ jsFindIndexById rest y.id := jsFindIndexById_nonneg_of_mem hy
      simp only [jsFindIndexById, if_neg hxid, if_neg hyid]
      split_ifs <;> omega

lemma settingLe_iff {α : Type} (favorites : List String)
    (settings : List (Setting α)) (s t : Setting α) :
    settingLe favorites settings s t ↔
      (-(jsIndexOf favorites s.path) < -(jsIndexOf favorites t.path) ∨
        (-(jsIndexOf favorites s.path) = -(jsIndexOf favorites t.path) ∧
          jsFindIndexById settings s.id ≤ jsFindIndexById settings t.id)) :=
  Iff.rfl

/-- C3 (amended): the displayed order is a permutation of the fetched
settings in which every favorited setting precedes every non-favorited
one and the non-favorited block keeps the original fetch order (given
duplicate-free ids); but among favorites the order is DESCENDING position
in the favorites list (most recently favorited first) — the favorites-list
order does influence the displayed order, the favorite key is not binary. -/
theorem settings_order_amended {α : Type} (favorites : List String)
    (settings : List (Setting α))
    (hid : (settings.map fun s => s.id).Nodup) :
    (displayedSettings favorites settings).Perm settings ∧
      (∀ x y : Setting α,
        [x, y].Sublist (displayedSettings favorites settings) →
        y.path ∈ favorites → x.path ∈ favorites) ∧
      (∀ x y : Setting α,
        [x, y].Sublist (displayedSettings favorites settings) →
        x.path ∈ favorites → y.path ∈ favorites →
        jsIndexOf favorites y.path ≤ jsIndexOf favorites x.path) ∧
      (∀ x y : Setting α,
        [x, y].Sublist (displayedSettings favorites settings) →
        x.path ∉ favorites → y.path ∉ favorites →
        [x, y].Sublist settings) := by
  have hsorted : List.Sorted (settingLe favorites settings)
      (displayedSettings favorites settings) :=
    List.sorted_insertionSort _ _
  have hperm := List.perm_insertionSort (settingLe favorites settings) settings
  have hpair : ∀ x y : Setting α,
      [x, y].Sublist (displayedSettings favorites settings) →
      settingLe favorites settings x y := by
    intro x y h
    exact List.pairwise_pair.mp (List.Pairwise.sublist h hsorted)
  refine ⟨hperm, ?_, ?_, ?_⟩
  · intro x y h hy
    have hle := (settingLe_iff favorites settings x y).mp (hpair x y h)
    have hymem := (jsIndexOf_mem_iff favorites y.path).mp hy
    rw [jsIndexOf_mem_iff]
    omega
  · intro x y h hx hy
    have hle := (settingLe_iff favorites settings x y).mp (hpair x y h)
    omega
  · intro x y h hx hy
    have hle := (settingLe_iff favorites settings x y).mp (hpair x y h)
    have hxni := (jsIndexOf_neg_one_iff favorites x.path).mpr hx
    have hyni := (jsIndexOf_neg_one_iff favorites y.path).mpr hy
    have hk2 : jsFindIndexById settings x.id ≤ jsFindIndexById settings y.id := by
      omega
    have hsnd : settings.Nodup := List.Nodup.of_map _ hid
    have hdnd : (displayedSettings favorites settings).Nodup :=
      hperm.nodup_iff.mpr hsnd
    have hxy : x ≠ y := by
      intro he
      subst he
      have := List.Nodup.sublist h hdnd
      simp at this
    have hxmem : x ∈ settings := hperm.subset (h.subset (by simp))
    have hymem : y ∈ settings := hperm.subset (h.subset (by simp))
    rcases pair_sublist_total hxmem hymem hxy with hgood | hbad
    · exact hgood
    · exfalso
      have := findIndexById_lt_of_pair_sublist hid hbad
      omega

/-- Witness for the amended C3 on a concrete settings list with one
favorite. -/
theorem settings_order_amended_witness :
    (displayedSettings ["a"]
        [⟨0, 1, "", "A", "A", "b", 0, 2, (0 : ℤ), none⟩,
         ⟨0, 2, "", "B", "B", "a", 0, 2, (0 : ℤ), none⟩]).Perm
      [⟨0, 1, "", "A", "A", "b", 0, 2, (0 : ℤ), none⟩,
       ⟨0, 2, "", "B", "B", "a", 0, 2, (0 : ℤ), none⟩] ∧
      (∀ x y : Setting ℤ,
        [x, y].Sublist (displayedSettings ["a"]
          [⟨0, 1, "", "A", "A", "b", 0, 2, (0 : ℤ), none⟩,
           ⟨0, 2, "", "B", "B", "a", 0, 2, (0 : ℤ), none⟩]) →
        y.path ∈ ["a"] → x.path ∈ ["a"]) ∧
      (∀ x y : Setting ℤ,
        [x, y].Sublist (displayedSettings ["a"]
          [⟨0, 1, "", "A", "A", "b", 0, 2, (0 : ℤ), none⟩,
           ⟨0, 2, "", "B", "B", "a", 0, 2, (0 : ℤ), none⟩]) →
        x.path ∈ ["a"] → y.path ∈ ["a"] →
        jsIndexOf ["a"] y.path ≤ jsIndexOf ["a"] x.path) ∧
      (∀ x y : Setting ℤ,
        [x, y].Sublist (displayedSettings ["a"]
          [⟨0, 1, "", "A", "A", "b", 0, 2, (0 : ℤ), none⟩,
           ⟨0, 2, "", "B", "B", "a", 0, 2, (0 : ℤ), none⟩]) →
        x.path ∉ ["a"] → y.path ∉ ["a"] →
        [x, y].Sublist
          [⟨0, 1, "", "A", "A", "b", 0, 2, (0 : ℤ), none⟩,
           ⟨0, 2, "", "B", "B", "a", 0, 2, (0 : ℤ), none⟩]) :=
  settings_order_amended ["a"]
    [⟨0, 1, "", "A", "A", "b", 0, 2, (0 : ℤ), none⟩,
     ⟨0, 2, "", "B", "B", "a", 0, 2, (0 : ℤ), none⟩] (by decide)

/-- Counterexample to C3 as stated: two settings, both favorited, fetched
in order A (path "a") then B (path "b") with favorites ["a", "b"]; the
displayed order is [B, A] — the original fetch order is NOT preserved
among favorites, because the sort key is minus the favorites-list index,
not a binary favorite flag. -/
theorem settings_order_counterexample :
    displayedSettings ["a", "b"]
        [⟨0, 1, "", "A", "A", "a", 0, 2, (0 : ℤ), none⟩,
         ⟨0, 2, "", "B", "B", "b", 0, 2, (0 : ℤ), none⟩] =
      [⟨0, 2, "", "B", "B", "b", 0, 2, (0 : ℤ), none⟩,
       ⟨0, 1, "", "A", "A", "a", 0, 2, (0 : ℤ), none⟩] ∧
      ("a" : String) ∈ (["a", "b"] : List String) ∧
      ("b" : String) ∈ (["a", "b"] : List String) ∧
      (⟨0, 1, "", "A", "A", "a", 0, 2, (0 : ℤ), none⟩ : Setting ℤ) ≠
        ⟨0, 2, "", "B", "B", "b", 0, 2, (0 : ℤ), none⟩ := by
  refine ⟨by decide, by decide, by decide, by decide⟩

lemma attemptsUsed_le (m : HttpMethod) (attempts : ℕ → RequestOutcome) :
    ∀ r i : ℕ, attemptsUsed m attempts r i ≤ r + 1 := by
  intro r
  induction r with
  | zero =>
    intro i
    simp [attemptsUsed]
  | succ k ih =>
    intro i
    simp only [attemptsUsed]
    split
    · omega
    · split_ifs with hc
      · have := ih (i + 1)
        omega
      · omega

/-- C6 (amended): the luum `updateSetting` PUT goes through bare axios
(never wrapped by axios-retry) and issues exactly one request per
invocation; but the web-simple capture GET goes through the globally
retry-wrapped axios instance, so one invocation can issue up to 4 requests
(1 + 3 retries) when attempts keep failing retryably. -/
theorem write_retry_amended (attempts : ℕ → RequestOutcome) :
    updateRequestsIssued attempts = 1 ∧
      captureRequestsIssued attempts ≤ 4 :=
  ⟨rfl, attemptsUsed_le HttpMethod.get attempts 3 0⟩

/-- Counterexample to C6 as stated: a capture invocation whose first
attempt fails with a network error and whose second succeeds issues 2
requests to the backend — the capture write IS retried automatically by
the `axiosRetry(axios, {retries: 3})` policy, since it is issued as a GET. -/
theorem capture_retry_counterexample :
    captureRequestsIssued (fun i =>
        if i = 0 then RequestOutcome.networkError
        else RequestOutcome.success) = 2 ∧
      ¬ captureRequestsIssued (fun i =>
          if i = 0 then RequestOutcome.networkError
          else RequestOutcome.success) ≤ 1 := by
  constructor <;> decide

end Luum
